import Mathlib

/-!
Verification of the dokkument core: file parsing (`parser.py`) and the in-memory
link registry (`link_manager.py`).  Python code is shallowly embedded: files are
lists of lines, the filesystem is an explicit structure, exceptions become an
error inductive carried by `Except`, and the regular expression
`"([^"]+)"\s*->\s*"([^"]+)"` used with `re.match` is implemented as a
deterministic character-level matcher.
-/

set_option maxHeartbeats 1000000

namespace Dokkument

/-- Equality on `Except` results is decidable when it is on both components. -/
instance {ε α : Type} [DecidableEq ε] [DecidableEq α] : DecidableEq (Except ε α) := fun a b =>
  match a, b with
  | Except.ok x, Except.ok y =>
      if h : x = y then isTrue (by rw [h]) else isFalse (fun c => h (Except.ok.inj c))
  | Except.error x, Except.error y =>
      if h : x = y then isTrue (by rw [h]) else isFalse (fun c => h (Except.error.inj c))
  | Except.ok _, Except.error _ => isFalse (fun c => Except.noConfusion c)
  | Except.error _, Except.ok _ => isFalse (fun c => Except.noConfusion c)

/-- The double-quote character, used by the line matcher. -/
def dq : Char := '\"'

/-- Models Python `str.lower()` (ASCII case folding, which is all the code relies on). -/
def pyLower (s : String) : String := String.mk (s.data.map Char.toLower)

/-- Models Python `str.strip()`: drop leading and trailing whitespace. -/
def pyTrim (s : String) : String :=
  String.mk (((s.data.dropWhile Char.isWhitespace).reverse.dropWhile Char.isWhitespace).reverse)

/-- Models Python `str.startswith(p)` as a character-list check. -/
def pyStartsWith (s p : String) : Bool := List.isPrefixOf p.data s.data

/-- Models Python substring containment `needle in hay` on character lists. -/
def listContainsSub : List Char → List Char → Bool
  | needle, [] => needle.isEmpty
  | needle, c :: t => List.isPrefixOf needle (c :: t) || listContainsSub needle t

/-- Models Python `pathlib.Path.suffix` followed by nothing: the extension of the
last path component, empty when the name has no internal dot. -/
def pySuffix (p : String) : String :=
  let nameRev := (p.data.reverse).takeWhile (fun c => c != '/')
  let afterDot := nameRev.takeWhile (fun c => c != '.')
  if afterDot.length != 0 && afterDot.length + 1 < nameRev.length then
    String.mk ('.' :: afterDot.reverse)
  else ""

/-- Valid scheme spelling for `urllib.parse`: a letter followed by letters,
digits, `+`, `-`, `.`. -/
def validSchemeChars : List Char → Bool
  | [] => false
  | c :: rest => c.isAlpha && rest.all (fun d => d.isAlphanum || d == '+' || d == '-' || d == '.')

/-- Splits a character list at the first `:`; `none` when there is no colon. -/
def splitFirstColon : List Char → Option (List Char × List Char)
  | [] => none
  | ':' :: t => some ([], t)
  | c :: t => (splitFirstColon t).map (fun p => (c :: p.1, p.2))

/-- Models Python `urllib.parse.urlparse`, restricted to the two components the
code reads: the (lowercased) scheme and the netloc.  Mirrors CPython: the scheme
is split off only when the text before the first colon is a valid scheme
spelling; the netloc is present only after `//` and runs to the first of
`/`, `?`, `#`; mismatched square brackets in the netloc raise `ValueError`
(modelled as `Except.error`). -/
def urlparse (u : String) : Except Unit (String × String) :=
  let sr : String × List Char :=
    match splitFirstColon u.data with
    | some p =>
        if validSchemeChars p.1 then (String.mk (p.1.map Char.toLower), p.2)
        else ("", u.data)
    | none => ("", u.data)
  match sr.2 with
  | '/' :: '/' :: r =>
      let netloc := r.takeWhile (fun c => c != '/' && c != '?' && c != '#')
      if (netloc.contains '[' && !netloc.contains ']')
          || (netloc.contains ']' && !netloc.contains '[') then
        Except.error ()
      else Except.ok (sr.1, String.mk netloc)
  | _ => Except.ok (sr.1, "")

/-- The exceptions the embedded code can raise.  Each constructor records the
values interpolated into the corresponding Python message. -/
inductive PyError where
  /-- `ParseError("Descrizione vuota in {file_path}")` from `DokkEntry._validate`. -/
  | emptyDescription (filePath : String)
  /-- `ParseError("URL vuoto per '{description}' in {file_path}")`. -/
  | emptyUrl (description : String) (filePath : String)
  /-- `ParseError("URL non valido '{url}' per '{description}' in {file_path}")`. -/
  | invalidUrl (url : String) (description : String) (filePath : String)
  /-- `ParseError("Formato non valido alla riga {line_number} di {file_path}: {line}")`. -/
  | invalidFormat (lineNumber : Nat) (filePath : String) (line : String)
  /-- `ParseError("Errore alla riga {line_number} di {file_path}: {e}")`. -/
  | entryError (lineNumber : Nat) (filePath : String) (inner : PyError)
  /-- `FileNotFoundError` for a missing file or directory. -/
  | fileNotFound (path : String)
  /-- `ParseError("Il path specificato non e un file: {file_path}")`. -/
  | notAFile (path : String)
  /-- `ParseError` wrapping a failed read (UTF-8 and Latin-1 both failed, or I/O error). -/
  | unreadable (path : String)
  /-- `ParseError("Nessun parser disponibile per il file: {file_path}")`. -/
  | noParser (path : String)
  /-- `NotADirectoryError("Il path specificato non e una directory: {root_path}")`. -/
  | notADirectory (path : String)
  /-- `RuntimeError("Errore durante la scansione: {e}")` from `LinkManager.scan_for_links`. -/
  | runtimeWrapped (inner : PyError)
deriving DecidableEq, Repr

/-- One validated entry of a `.dokk` file (`DokkEntry` in `parser.py`). -/
structure DokkEntry where
  description : String
  url : String
  file_path : String
deriving DecidableEq, Repr

/-- `DokkEntry.__init__` + `_validate`: trims both texts, then fails unless the
description is non-empty, the url is non-empty, and the url starts with
`http://` or `https://`. -/
def DokkEntry.make (description url file_path : String) : Except PyError DokkEntry :=
  if pyTrim description = "" then Except.error (PyError.emptyDescription file_path)
  else if pyTrim url = "" then Except.error (PyError.emptyUrl (pyTrim description) file_path)
  else if !(pyStartsWith (pyTrim url) "http://" || pyStartsWith (pyTrim url) "https://") then
    Except.error (PyError.invalidUrl (pyTrim url) (pyTrim description) file_path)
  else Except.ok ⟨pyTrim description, pyTrim url, file_path⟩

/-- Reads one quoted group `"([^"]+)"`: a double quote, one or more non-quote
characters, a closing double quote.  Returns the group and the rest. -/
def chompQuoted (cs : List Char) : Option (List Char × List Char) :=
  match cs with
  | c :: rest =>
      if c = dq then
        let body := rest.takeWhile (fun x => x != dq)
        match rest.dropWhile (fun x => x != dq) with
        | c2 :: rest2 => if c2 = dq && !body.isEmpty then some (body, rest2) else none
        | [] => none
      else none
  | [] => none

/-- `StandardDokkParser.PATTERN.match(line)`: the regex
`"([^"]+)"\s*->\s*"([^"]+)"` matched as a prefix of the line (that is what
`re.match` does — it does not require the match to reach the end of the line).
Returns the two captured groups on success. -/
def regexMatch (s : String) : Option (String × String) :=
  match chompQuoted s.data with
  | none => none
  | some dr =>
      match (dr.2.dropWhile Char.isWhitespace) with
      | '-' :: '>' :: r3 =>
          match chompQuoted (r3.dropWhile Char.isWhitespace) with
          | none => none
          | some ur => some (String.mk dr.1, String.mk ur.1)
      | _ => none

/-- The matching rule as the specification words it: the quoted-arrow pattern
must cover the line exactly, with nothing extra accepted after the second
quoted group.  Stated from the spec for comparison with `regexMatch`, which is
what the code actually runs. -/
def specLineMatchesExactly (s : String) : Bool :=
  match chompQuoted s.data with
  | none => false
  | some dr =>
      match (dr.2.dropWhile Char.isWhitespace) with
      | '-' :: '>' :: r3 =>
          match chompQuoted (r3.dropWhile Char.isWhitespace) with
          | none => false
          | some ur => ur.2.isEmpty
      | _ => false

/-- The line loop of `StandardDokkParser.parse`: lines are 1-indexed, blank and
`#` lines are skipped, a matching line yields an entry (an entry-construction
failure is re-raised with the line number), a non-matching line aborts the
whole file. -/
def parseLinesAux (filePath : String) : Nat → List String → Except PyError (List DokkEntry)
  | _, [] => Except.ok []
  | lineNumber, l :: rest =>
      if pyTrim l = "" || pyStartsWith (pyTrim l) "#" then
        parseLinesAux filePath (lineNumber + 1) rest
      else
        match regexMatch (pyTrim l) with
        | some du =>
            match DokkEntry.make du.1 du.2 filePath with
            | Except.ok e => (parseLinesAux filePath (lineNumber + 1) rest).map (fun es => e :: es)
            | Except.error err => Except.error (PyError.entryError lineNumber filePath err)
        | none => Except.error (PyError.invalidFormat lineNumber filePath (pyTrim l))

/-- A file of the scanned filesystem, with the attributes the code queries. -/
structure FSFile where
  /-- The file's path, as a string. -/
  path : String
  /-- `path.exists()`. -/
  fsExists : Bool
  /-- `path.is_file()`: the path is a regular file. -/
  isFile : Bool
  /-- The file's text could be obtained (UTF-8, or the Latin-1 fallback). -/
  readOk : Bool
  /-- `content.splitlines()`. -/
  lines : List String
  /-- The file is a direct child of the scan root. -/
  isDirectChild : Bool
  /-- The file's name is matched by the glob pattern `*.dokk`. -/
  matchesDokkGlob : Bool
deriving DecidableEq, Repr

/-- `StandardDokkParser.parse`: existence and regular-file checks, the read with
encoding fallback, then the line loop. -/
def StandardDokkParser.parse (f : FSFile) : Except PyError (List DokkEntry) :=
  if !f.fsExists then Except.error (PyError.fileNotFound f.path)
  else if !f.isFile then Except.error (PyError.notAFile f.path)
  else if !f.readOk then Except.error (PyError.unreadable f.path)
  else parseLinesAux f.path 1 f.lines

/-- `StandardDokkParser.can_handle`: the suffix, lowercased, is `.dokk`. -/
def StandardDokkParser.can_handle (p : String) : Bool :=
  pyLower (pySuffix p) = ".dokk"

/-- `DokkParserFactory.parse_file` with the default parser list
`[StandardDokkParser()]`: pick the first parser whose `can_handle` accepts the
file, fail with a no-parser error when none does. -/
def DokkParserFactory.parse_file (f : FSFile) : Except PyError (List DokkEntry) :=
  if StandardDokkParser.can_handle f.path then StandardDokkParser.parse f
  else Except.error (PyError.noParser f.path)

/-- The filesystem as seen from one scan root. -/
structure FS where
  /-- The root path, as a string. -/
  rootPath : String
  /-- `root_path.exists()`. -/
  rootExists : Bool
  /-- `root_path.is_dir()`. -/
  rootIsDir : Bool
  /-- Every file under the root, in the deterministic order `glob` yields them. -/
  files : List FSFile
deriving DecidableEq, Repr

/-- The files enumerated by `root_path.glob("**/*.dokk" if recursive else "*.dokk")`. -/
def candidateFiles (fs : FS) (recursive : Bool) : List FSFile :=
  fs.files.filter (fun f => f.matchesDokkGlob && (recursive || f.isDirectChild))

/-- `DokkFileScanner.scan_directory`: the two root preconditions, then one
`parse_file` per candidate with every per-file exception caught and the file
skipped, and files with zero entries omitted from the result. -/
def DokkFileScanner.scan_directory (fs : FS) (recursive : Bool) :
    Except PyError (List (String × List DokkEntry)) :=
  if !fs.rootExists then Except.error (PyError.fileNotFound fs.rootPath)
  else if !fs.rootIsDir then Except.error (PyError.notADirectory fs.rootPath)
  else Except.ok ((candidateFiles fs recursive).filterMap (fun f =>
    match DokkParserFactory.parse_file f with
    | Except.ok entries => if entries.isEmpty then none else some (f.path, entries)
    | Except.error _ => none))

/-- The registry's mutable state (`LinkManager.__init__`). -/
structure LinkManager where
  entries : List DokkEntry
  entriesByFile : List (String × List DokkEntry)
  lastScanPath : Option String
  fileColors : List (String × String)
deriving DecidableEq, Repr

/-- A fresh `LinkManager()`. -/
def LinkManager.initial : LinkManager := ⟨[], [], none, []⟩

/-- `LinkManager.COLORS`: the fixed ANSI palette. -/
def COLORS : List String :=
  ["\x1b[91m", "\x1b[92m", "\x1b[93m", "\x1b[94m", "\x1b[95m", "\x1b[96m", "\x1b[97m"]

/-- The color-assignment loop of `scan_for_links`: `color_index` starts at 0 and
each file in first-seen order gets `COLORS[color_index % len(COLORS)]`. -/
def assignColors : Nat → List (String × List DokkEntry) → List (String × String)
  | _, [] => []
  | colorIndex, pe :: rest =>
      (pe.1, COLORS.getD (colorIndex % COLORS.length) "") :: assignColors (colorIndex + 1) rest

/-- `LinkManager.scan_for_links`: records the root and clears all state first,
then runs the scanner; on success rebuilds colors, the file map and the
flattened list and returns the entry count; any scanner exception is wrapped in
a `RuntimeError` (the already-cleared state is what remains). -/
def LinkManager.scan_for_links (_st : LinkManager) (rootPath : String) (fs : FS)
    (recursive : Bool) : LinkManager × Except PyError Nat :=
  match DokkFileScanner.scan_directory fs recursive with
  | Except.error e => (⟨[], [], some rootPath, []⟩, Except.error (PyError.runtimeWrapped e))
  | Except.ok fileEntries =>
      (⟨(fileEntries.map Prod.snd).flatten, fileEntries, some rootPath,
        assignColors 0 fileEntries⟩,
       Except.ok (fileEntries.map Prod.snd).flatten.length)

/-- `LinkManager.get_all_entries` (the Python copy is irrelevant to values). -/
def LinkManager.get_all_entries (st : LinkManager) : List DokkEntry := st.entries

/-- `LinkManager.get_entry_by_index`: 1-based, `None` outside `[1, count]`. -/
def LinkManager.get_entry_by_index (st : LinkManager) (index : Int) : Option DokkEntry :=
  if 1 ≤ index ∧ index ≤ (st.entries.length : Int) then st.entries[(index - 1).toNat]?
  else none

/-- `LinkManager.get_file_color`: dictionary lookup with `''` default. -/
def LinkManager.get_file_color (st : LinkManager) (p : String) : String :=
  (st.fileColors.lookup p).getD ""

/-- `LinkManager.filter_entries`: case-insensitive substring match of the search
term against each description. -/
def LinkManager.filter_entries (st : LinkManager) (searchTerm : String) : List DokkEntry :=
  st.entries.filter (fun e =>
    listContainsSub (pyLower searchTerm).data (pyLower e.description).data)

/-- The dictionary returned by `LinkManager.get_statistics`. -/
structure ScanStats where
  total_links : Nat
  total_files : Nat
  unique_domains : Nat
deriving DecidableEq, Repr

/-- `LinkManager.get_statistics`: all zeros when there are no entries, otherwise
the entry count, the file count, and the number of distinct lowercased
non-empty netlocs (entries whose `urlparse` raises are skipped). -/
def LinkManager.get_statistics (st : LinkManager) : ScanStats :=
  if st.entries.isEmpty then ⟨0, 0, 0⟩
  else
    ⟨st.entries.length, st.entriesByFile.length,
     (st.entries.foldl (fun acc e =>
        match urlparse e.url with
        | Except.error _ => acc
        | Except.ok sn => if sn.2 == "" then acc else acc.insert (pyLower sn.2)) []).length⟩

/-- The reason strings of `validate_all_links`. -/
inductive ValidationReason where
  /-- `"Schema URL non valido"`. -/
  | invalidScheme
  /-- `"Dominio mancante nell'URL"`. -/
  | missingDomain
  /-- `"Errore nel parsing dell'URL: {e}"`. -/
  | urlParseError
deriving DecidableEq, Repr

/-- `LinkManager.validate_all_links`: re-parses each entry's URL and flags a
missing/invalid scheme, a missing netloc, or a `urlparse` failure. -/
def LinkManager.validate_all_links (st : LinkManager) : List (DokkEntry × ValidationReason) :=
  st.entries.filterMap (fun e =>
    match urlparse e.url with
    | Except.error _ => some (e, ValidationReason.urlParseError)
    | Except.ok sn =>
        if sn.1 == "" || !(sn.1 == "http" || sn.1 == "https") then
          some (e, ValidationReason.invalidScheme)
        else if sn.2 == "" then some (e, ValidationReason.missingDomain)
        else none)

/-- One element of the `entries` arrays in the JSON export. -/
structure JsonEntry where
  description : String
  url : String
deriving DecidableEq, Repr

/-- One element of the `files` array in the JSON export. -/
structure JsonFileData where
  file_path : String
  entries : List JsonEntry
deriving DecidableEq, Repr

/-- The `scan_info` object of the JSON export. -/
structure JsonScanInfo where
  scan_path : Option String
  total_entries : Nat
  total_files : Nat
deriving DecidableEq, Repr

/-- The whole object `LinkManager._export_to_json` passes to `json.dumps`
(the serialization to text is faithful, so the object is what we reason on). -/
structure JsonExport where
  scan_info : JsonScanInfo
  files : List JsonFileData
deriving DecidableEq, Repr

/-- `LinkManager._export_to_json`, up to `json.dumps`. -/
def LinkManager.export_to_json (st : LinkManager) : JsonExport :=
  ⟨⟨st.lastScanPath, st.entries.length, st.entriesByFile.length⟩,
   st.entriesByFile.map (fun pe => ⟨pe.1, pe.2.map (fun e => ⟨e.description, e.url⟩)⟩)⟩

/-- The registry invariant every reachable state satisfies: the flattened list
is the concatenation of the per-file lists in file order. -/
def LinkManager.Wf (st : LinkManager) : Prop :=
  st.entries = (st.entriesByFile.map Prod.snd).flatten

/-- A line on which the parse loop continues: blank or comment after trimming,
or a pattern match whose entry construction succeeds. -/
def okLine (filePath l : String) : Bool :=
  if pyTrim l = "" || pyStartsWith (pyTrim l) "#" then true
  else
    match regexMatch (pyTrim l) with
    | some du =>
        match DokkEntry.make du.1 du.2 filePath with
        | Except.ok _ => true
        | Except.error _ => false
    | none => false

/-- The statistic as the specification words it: the distinct lowercase host
components parsed from the entry URLs, skipping entries whose host cannot be
parsed (a `urlparse` failure or an empty host). -/
def specUniqueDomains (entries : List DokkEntry) : List String :=
  (entries.filterMap (fun e =>
    match urlparse e.url with
    | Except.error _ => none
    | Except.ok sn => if sn.2 == "" then none else some (pyLower sn.2))).dedup

/-- A well-formed `.dokk` file with one entry, used as a concrete test input. -/
def sampleGood : FSFile :=
  ⟨"a.dokk", true, true, true, ["\"X\" -> \"https://x.test\""], true, true⟩

/-- A second well-formed `.dokk` file, used as a concrete test input. -/
def sampleGood2 : FSFile :=
  ⟨"b.dokk", true, true, true, ["\"Y\" -> \"https://y.test\""], true, true⟩

/-- A malformed `.dokk` file, used as a concrete test input. -/
def sampleBad : FSFile :=
  ⟨"bad.dokk", true, true, true, ["oops"], true, true⟩

/-- A filesystem with the two well-formed files, used as a concrete test input. -/
def sampleFS : FS := ⟨"r", true, true, [sampleGood, sampleGood2]⟩

/-- A registry state holding the result of scanning `sampleFS`, plus one
host-less (but constructible) URL, used as a concrete test input. -/
def sampleState : LinkManager :=
  ⟨[⟨"X", "https://x.test", "a.dokk"⟩, ⟨"Y", "https://y.test", "b.dokk"⟩,
    ⟨"Z", "http://", "b.dokk"⟩],
   [("a.dokk", [⟨"X", "https://x.test", "a.dokk"⟩]),
    ("b.dokk", [⟨"Y", "https://y.test", "b.dokk"⟩, ⟨"Z", "http://", "b.dokk"⟩])],
   some "r",
   [("a.dokk", "\x1b[91m"), ("b.dokk", "\x1b[92m")]⟩

/-! ## Helper lemmas -/

/-- Inversion for successful entry construction: every check passed and the
fields hold the trimmed inputs. -/
lemma make_ok_inv {d u f : String} {e : DokkEntry}
    (h : DokkEntry.make d u f = Except.ok e) :
    e.description = pyTrim d ∧ e.url = pyTrim u ∧ e.file_path = f ∧
      pyTrim d ≠ "" ∧ pyTrim u ≠ "" ∧
      (pyStartsWith (pyTrim u) "http://" || pyStartsWith (pyTrim u) "https://") = true := by
  unfold DokkEntry.make at h
  split_ifs at h with h1 h2 h3
  have he := Except.ok.inj h
  have h3' : (pyStartsWith (pyTrim u) "http://" || pyStartsWith (pyTrim u) "https://") = true := by
    cases hc : (pyStartsWith (pyTrim u) "http://" || pyStartsWith (pyTrim u) "https://")
    · exact absurd (by simp [hc]) h3
    · rfl
  exact ⟨by rw [← he], by rw [← he], by rw [← he], h1, h2, h3'⟩

/-- The empty needle is a substring of every haystack. -/
lemma listContainsSub_nil (l : List Char) : listContainsSub [] l = true := by
  cases l with
  | nil => rfl
  | cons c t => simp [listContainsSub, List.isPrefixOf]

/-- The domain-collection step of `get_statistics`, expressed through the
optional domain it extracts. -/
lemma domStep_eq (acc : List String) (e : DokkEntry) :
    (match urlparse e.url with
      | Except.error _ => acc
      | Except.ok sn => if sn.2 == "" then acc else acc.insert (pyLower sn.2))
    = (match (match urlparse e.url with
        | Except.error _ => none
        | Except.ok sn => if sn.2 == "" then none else some (pyLower sn.2)) with
       | none => acc
       | some d => acc.insert d) := by
  cases urlparse e.url with
  | error u => rfl
  | ok sn =>
      by_cases hn : (sn.2 == "") = true
      · simp [hn]
      · simp [hn]

/-- Folding the domain-collection step over the entries is folding plain set
insertion over the extracted domain list. -/
lemma foldDomains_eq (entries : List DokkEntry) : ∀ acc : List String,
    entries.foldl (fun acc e =>
      match urlparse e.url with
      | Except.error _ => acc
      | Except.ok sn => if sn.2 == "" then acc else acc.insert (pyLower sn.2)) acc
    = (entries.filterMap (fun e =>
        match urlparse e.url with
        | Except.error _ => none
        | Except.ok sn => if sn.2 == "" then none else some (pyLower sn.2))).foldl
        (fun a x => a.insert x) acc := by
  induction entries with
  | nil => intro acc; rfl
  | cons e t ih =>
      intro acc
      simp only [List.foldl_cons, List.filterMap_cons]
      rw [domStep_eq]
      cases (match urlparse e.url with
        | Except.error _ => (none : Option String)
        | Except.ok sn => if sn.2 == "" then none else some (pyLower sn.2)) with
      | none => exact ih acc
      | some d => exact ih _

/-- Membership in an insert-fold: the accumulator's elements plus the list's. -/
lemma foldl_insert_mem (l : List String) : ∀ (acc : List String) (x : String),
    (x ∈ l.foldl (fun a y => a.insert y) acc ↔ x ∈ acc ∨ x ∈ l) := by
  induction l with
  | nil => intro acc x; simp
  | cons y t ih =>
      intro acc x
      simp only [List.foldl_cons]
      rw [ih, List.mem_insert_iff, List.mem_cons]
      tauto

/-- An insert-fold preserves freedom from duplicates. -/
lemma foldl_insert_nodup (l : List String) : ∀ acc : List String, acc.Nodup →
    (l.foldl (fun a y => a.insert y) acc).Nodup := by
  induction l with
  | nil => intro acc h; exact h
  | cons y t ih => intro acc h; exact ih _ h.insert

/-- The size of an insert-fold from the empty accumulator is the number of
distinct elements. -/
lemma length_foldl_insert (l : List String) :
    (l.foldl (fun a y => a.insert y) []).length = l.dedup.length := by
  have h1 : (l.foldl (fun a y => a.insert y) []).Nodup := foldl_insert_nodup l [] (by simp)
  have h2 : l.dedup.Nodup := List.nodup_dedup l
  rw [← List.toFinset_card_of_nodup h1, ← List.toFinset_card_of_nodup h2]
  congr 1
  ext x
  simp only [List.mem_toFinset, List.mem_dedup]
  rw [foldl_insert_mem]
  simp

/-- The entry count reported by the statistics is always the length of the
flattened list. -/
lemma get_statistics_total_links (st : LinkManager) :
    st.get_statistics.total_links = st.entries.length := by
  unfold LinkManager.get_statistics
  by_cases h : st.entries.isEmpty
  · rw [if_pos h]
    have : st.entries = [] := by simpa [List.isEmpty_iff] using h
    simp [this]
  · rw [if_neg h]

/-! ## Claims -/

/-- C4.  Entry construction trims the description and url and succeeds exactly
when the trimmed description is non-empty, the trimmed url is non-empty, and
the trimmed url carries the literal scheme marker `http://` or `https://`
(case-sensitively); the constructed entry holds exactly the trimmed texts. -/
theorem claim_C4 (d u f : String) :
    ((∃ e, DokkEntry.make d u f = Except.ok e) ↔
      (pyTrim d ≠ "" ∧ pyTrim u ≠ "" ∧
        (pyStartsWith (pyTrim u) "http://" || pyStartsWith (pyTrim u) "https://") = true))
    ∧ (∀ e, DokkEntry.make d u f = Except.ok e →
        e.description = pyTrim d ∧ e.url = pyTrim u ∧ e.file_path = f) := by
  constructor
  · constructor
    · rintro ⟨e, he⟩
      have h := make_ok_inv he
      exact ⟨h.2.2.2.1, h.2.2.2.2.1, h.2.2.2.2.2⟩
    · rintro ⟨h1, h2, h3⟩
      refine ⟨⟨pyTrim d, pyTrim u, f⟩, ?_⟩
      unfold DokkEntry.make
      simp [h1, h2, h3]
  · intro e he
    have h := make_ok_inv he
    exact ⟨h.1, h.2.1, h.2.2.1⟩

/-- Witness for C4 at a concrete input. -/
theorem claim_C4_witness :
    (∃ e, DokkEntry.make " a " " http://x " "f.dokk" = Except.ok e) ∧
      (∀ e, DokkEntry.make " a " " http://x " "f.dokk" = Except.ok e →
        e.description = "a" ∧ e.url = "http://x") := by
  have h := claim_C4 " a " " http://x " "f.dokk"
  refine ⟨h.1.mpr (by decide), ?_⟩
  intro e he
  have h2 := h.2 e he
  exact ⟨h2.1.trans (by decide), h2.2.1.trans (by decide)⟩

/-- C10.  Filtering with the empty search term returns the full flattened entry
list, because the empty string is a substring of every description. -/
theorem claim_C10 (st : LinkManager) :
    st.filter_entries "" = st.get_all_entries := by
  unfold LinkManager.filter_entries LinkManager.get_all_entries
  apply List.filter_eq_self.mpr
  intro a _
  exact listContainsSub_nil _

/-- C8.  The 1-based indexed lookup yields an entry exactly for indices in
`[1, count]`, the entry being the `index`-th of the flattened list; `0` and
`count + 1` in particular give `none` for every non-empty registry. -/
theorem claim_C8 (st : LinkManager) (index : Int) :
    ((∃ e, st.get_entry_by_index index = some e) ↔
      (1 ≤ index ∧ index ≤ (st.entries.length : Int)))
    ∧ (∀ e, st.get_entry_by_index index = some e →
        st.entries[(index - 1).toNat]? = some e)
    ∧ (st.entries ≠ [] →
        st.get_entry_by_index 0 = none ∧
        st.get_entry_by_index ((st.entries.length : Int) + 1) = none) := by
  refine ⟨?_, ?_, ?_⟩
  · unfold LinkManager.get_entry_by_index
    by_cases h : 1 ≤ index ∧ index ≤ (st.entries.length : Int)
    · rw [if_pos h]
      constructor
      · intro _; exact h
      · intro _
        have hlt : (index - 1).toNat < st.entries.length := by omega
        exact ⟨st.entries[(index - 1).toNat], List.getElem?_eq_getElem hlt⟩
    · rw [if_neg h]
      simp [h]
  · intro e he
    unfold LinkManager.get_entry_by_index at he
    by_cases h : 1 ≤ index ∧ index ≤ (st.entries.length : Int)
    · rwa [if_pos h] at he
    · rw [if_neg h] at he
      exact absurd he (by simp)
  · intro hne
    have hpos : 0 < st.entries.length := List.length_pos.mpr hne
    unfold LinkManager.get_entry_by_index
    constructor
    · rw [if_neg (by omega)]
    · rw [if_neg (by omega)]

/-- Witness for C8 at a concrete input. -/
theorem claim_C8_witness :
    (∃ e, sampleState.get_entry_by_index 2 = some e)
    ∧ sampleState.get_entry_by_index 0 = none
    ∧ sampleState.get_entry_by_index 4 = none := by
  have h := claim_C8 sampleState 2
  have h0 := claim_C8 sampleState 0
  refine ⟨h.1.mpr (by decide), ?_, ?_⟩
  · exact ((claim_C8 sampleState 0).2.2 (by decide)).1
  · exact ((claim_C8 sampleState 4).2.2 (by decide)).2

/-- C1 fails as stated: `scan_for_links` clears the registry and records the new
root before invoking the scanner, so a scanner failure does not leave the state
unchanged.  Here a populated registry is emptied by a failing scan. -/
theorem claim_C1_counterexample :
    (LinkManager.scan_for_links sampleState "missing" ⟨"missing", false, false, []⟩ true).2
        = Except.error (PyError.runtimeWrapped (PyError.fileNotFound "missing"))
    ∧ (LinkManager.scan_for_links sampleState "missing" ⟨"missing", false, false, []⟩ true).1
        ≠ sampleState := by
  decide

/-- C1 amended.  When the scanner fails (missing root, or root not a
directory), the registry's scan fails with a wrapped runtime error and leaves
the registry cleared — empty entry list, file map and color tags, with the last
scanned root set to the attempted root — rather than unchanged. -/
theorem claim_C1 (st : LinkManager) (rootPath : String) (fs : FS) (recursive : Bool)
    (h : fs.rootExists = false ∨ fs.rootIsDir = false) :
    st.scan_for_links rootPath fs recursive
      = (⟨[], [], some rootPath, []⟩,
         Except.error (PyError.runtimeWrapped
           (if fs.rootExists then PyError.notADirectory fs.rootPath
            else PyError.fileNotFound fs.rootPath))) := by
  unfold LinkManager.scan_for_links DokkFileScanner.scan_directory
  rcases h with h | h
  · simp [h]
  · by_cases h2 : fs.rootExists <;> simp [h, h2]

/-- After any run of lines the loop would accept, a non-blank non-comment line
with no pattern match aborts the file with the error naming that line's number
and the file path. -/
lemma parseLinesAux_bad_line (filePath line : String) (post : List String)
    (hblank : pyTrim line ≠ "")
    (hcomment : pyStartsWith (pyTrim line) "#" = false)
    (hmatch : regexMatch (pyTrim line) = none) :
    ∀ (pre : List String) (n : Nat), (∀ l ∈ pre, okLine filePath l = true) →
      parseLinesAux filePath n (pre ++ line :: post)
        = Except.error (PyError.invalidFormat (n + pre.length) filePath (pyTrim line)) := by
  intro pre
  induction pre with
  | nil =>
      intro n _
      simp only [List.nil_append, List.length_nil, Nat.add_zero]
      unfold parseLinesAux
      rw [if_neg (by simp [hblank, hcomment])]
      rw [hmatch]
  | cons l rest ih =>
      intro n hok
      have hl := hok l (List.mem_cons_self l rest)
      have hrest : ∀ x ∈ rest, okLine filePath x = true :=
        fun x hx => hok x (List.mem_cons_of_mem l hx)
      simp only [List.cons_append, List.length_cons]
      unfold parseLinesAux
      by_cases hb : (decide (pyTrim l = "") || pyStartsWith (pyTrim l) "#") = true
      · rw [if_pos hb, ih (n + 1) hrest]
        rw [show n + 1 + rest.length = n + (rest.length + 1) by omega]
      · rw [if_neg hb]
        unfold okLine at hl
        rw [if_neg hb] at hl
        cases hm : regexMatch (pyTrim l) with
        | none => rw [hm] at hl; simp at hl
        | some du =>
            rw [hm] at hl
            cases hmk : DokkEntry.make du.1 du.2 filePath with
            | error err => simp [hmk] at hl
            | ok e =>
                show (match DokkEntry.make du.1 du.2 filePath with
                  | Except.ok e => Except.map (fun es => e :: es)
                      (parseLinesAux filePath (n + 1) (rest ++ line :: post))
                  | Except.error err =>
                      Except.error (PyError.entryError n filePath err)) = _
                rw [hmk]
                show Except.map (fun es => e :: es)
                    (parseLinesAux filePath (n + 1) (rest ++ line :: post)) = _
                rw [ih (n + 1) hrest]
                rw [show n + 1 + rest.length = n + (rest.length + 1) by omega]
                rfl

/-- C2 fails as stated: `re.match` anchors the pattern at the start of the line
only, so a line with trailing extra text after a valid quoted-arrow prefix is
not an exact match of the pattern, yet the parser accepts it and keeps the
prefix's entry instead of failing. -/
theorem claim_C2_counterexample :
    pyTrim "\"a\" -> \"http://x\" junk" ≠ ""
    ∧ pyStartsWith (pyTrim "\"a\" -> \"http://x\" junk") "#" = false
    ∧ specLineMatchesExactly (pyTrim "\"a\" -> \"http://x\" junk") = false
    ∧ StandardDokkParser.parse ⟨"f.dokk", true, true, true, ["\"a\" -> \"http://x\" junk"], true, true⟩
        = Except.ok [⟨"a", "http://x", "f.dokk"⟩] := by
  decide

/-- C2 amended.  A non-blank, non-comment line fails the file exactly when the
quoted-arrow pattern does not match at the start of the (trimmed) line — a
prefix match with trailing extra text is accepted.  On such a mismatch, after
any run of accepted lines, the whole file fails with a `ParseError` naming that
line's 1-based number and the file path, so no entries from the file are
returned, the earlier valid lines' entries included. -/
theorem claim_C2 (filePath : String) (pre : List String) (line : String) (post : List String)
    (hpre : ∀ l ∈ pre, okLine filePath l = true)
    (hblank : pyTrim line ≠ "")
    (hcomment : pyStartsWith (pyTrim line) "#" = false)
    (hmatch : regexMatch (pyTrim line) = none) :
    parseLinesAux filePath 1 (pre ++ line :: post)
      = Except.error (PyError.invalidFormat (pre.length + 1) filePath (pyTrim line)) := by
  rw [parseLinesAux_bad_line filePath line post hblank hcomment hmatch pre 1 hpre]
  rw [Nat.add_comm]

/-- Witness for the amended C2 at a concrete input: three accepted lines, then a
malformed fourth line, then a valid line; the file yields exactly the error
naming line 4. -/
theorem claim_C2_witness :
    parseLinesAux "f.dokk" 1
        (["\"a\" -> \"http://x\"", "", "# c"] ++ "bad" :: ["\"b\" -> \"http://y\""])
      = Except.error (PyError.invalidFormat 4 "f.dokk" "bad") := by
  have h := claim_C2 "f.dokk" ["\"a\" -> \"http://x\"", "", "# c"] "bad" ["\"b\" -> \"http://y\""]
    (by decide) (by decide) (by decide) (by decide)
  simpa using h

/-- C5.  The scan fails exactly for the two root preconditions; with a valid
root it always returns a mapping whose per-file lists are non-empty, and a
candidate file whose parse fails or yields no entries is simply dropped: the
scan result is the same as if the file were absent. -/
theorem claim_C5 (fs : FS) (recursive : Bool) :
    (fs.rootExists = false →
      DokkFileScanner.scan_directory fs recursive
        = Except.error (PyError.fileNotFound fs.rootPath))
    ∧ (fs.rootExists = true → fs.rootIsDir = false →
      DokkFileScanner.scan_directory fs recursive
        = Except.error (PyError.notADirectory fs.rootPath))
    ∧ (fs.rootExists = true → fs.rootIsDir = true →
      ∃ l, DokkFileScanner.scan_directory fs recursive = Except.ok l
        ∧ ∀ pe ∈ l, pe.2 ≠ [])
    ∧ (∀ (pre post : List FSFile) (f : FSFile),
        ((∃ err, DokkParserFactory.parse_file f = Except.error err)
          ∨ DokkParserFactory.parse_file f = Except.ok []) →
        DokkFileScanner.scan_directory
            ⟨fs.rootPath, fs.rootExists, fs.rootIsDir, pre ++ f :: post⟩ recursive
          = DokkFileScanner.scan_directory
            ⟨fs.rootPath, fs.rootExists, fs.rootIsDir, pre ++ post⟩ recursive) := by
  have hstep : ∀ f : FSFile,
      ((∃ err, DokkParserFactory.parse_file f = Except.error err)
        ∨ DokkParserFactory.parse_file f = Except.ok []) →
      (match DokkParserFactory.parse_file f with
        | Except.ok entries => if entries.isEmpty then none else some (f.path, entries)
        | Except.error _ => (none : Option (String × List DokkEntry))) = none := by
    intro f hbad
    rcases hbad with ⟨err, herr⟩ | hok
    · rw [herr]
    · rw [hok]; rfl
  refine ⟨?_, ?_, ?_, ?_⟩
  · intro h
    unfold DokkFileScanner.scan_directory
    rw [if_pos (by simp [h])]
  · intro h1 h2
    unfold DokkFileScanner.scan_directory
    rw [if_neg (by simp [h1]), if_pos (by simp [h2])]
  · intro h1 h2
    unfold DokkFileScanner.scan_directory
    rw [if_neg (by simp [h1]), if_neg (by simp [h2])]
    refine ⟨_, rfl, ?_⟩
    intro pe hpe
    rw [List.mem_filterMap] at hpe
    obtain ⟨f, _, hf⟩ := hpe
    revert hf
    cases hp : DokkParserFactory.parse_file f with
    | error e => intro hf; simp at hf
    | ok es =>
        intro hf
        by_cases he : es.isEmpty
        · simp [he] at hf
        · simp [he] at hf
          rw [← hf]
          intro hnil
          exact he (by simp [show es = [] from hnil])
  · intro pre post f hbad
    by_cases h1 : fs.rootExists
    case neg =>
      unfold DokkFileScanner.scan_directory
      simp [h1]
    case pos =>
      by_cases h2 : fs.rootIsDir
      case neg =>
        unfold DokkFileScanner.scan_directory
        simp [h1, h2]
      case pos =>
        unfold DokkFileScanner.scan_directory
        simp only [h1, h2, Bool.not_true, Bool.false_eq_true, if_false]
        congr 1
        unfold candidateFiles
        simp only [List.filter_append, List.filter_cons]
        by_cases hc : (f.matchesDokkGlob && (recursive || f.isDirectChild)) = true
        · rw [if_pos hc]
          simp only [List.filterMap_append, List.filterMap_cons]
          rw [hstep f hbad]
        · rw [if_neg hc]

/-- `pyStartsWith` as a decomposition of the character list. -/
lemma pyStartsWith_iff (s p : String) :
    pyStartsWith s p = true ↔ ∃ t, s.data = p.data ++ t := by
  unfold pyStartsWith
  rw [List.isPrefixOf_iff_prefix]
  constructor
  · rintro ⟨t, ht⟩; exact ⟨t, ht.symm⟩
  · rintro ⟨t, ht⟩; exact ⟨t, ht.symm⟩

/-- A URL spelled `http://...` that `urlparse` accepts parses with scheme
`http`. -/
lemma urlparse_scheme_http (u : String) (t : List Char) (s nl : String)
    (ht : u.data = 'h' :: 't' :: 't' :: 'p' :: ':' :: '/' :: '/' :: t)
    (h : urlparse u = Except.ok (s, nl)) : s = "http" := by
  unfold urlparse at h
  rw [ht] at h
  simp only [splitFirstColon, Option.map_some'] at h
  simp only [show validSchemeChars ['h', 't', 't', 'p'] = true from by decide, if_true] at h
  simp only [show String.mk (List.map Char.toLower ['h', 't', 't', 'p']) = "http"
    from by decide] at h
  simp at h
  split at h
  · exact Except.noConfusion h
  · injection h with hp
    exact (congrArg Prod.fst hp).symm

/-- A URL spelled `https://...` that `urlparse` accepts parses with scheme
`https`. -/
lemma urlparse_scheme_https (u : String) (t : List Char) (s nl : String)
    (ht : u.data = 'h' :: 't' :: 't' :: 'p' :: 's' :: ':' :: '/' :: '/' :: t)
    (h : urlparse u = Except.ok (s, nl)) : s = "https" := by
  unfold urlparse at h
  rw [ht] at h
  simp only [splitFirstColon, Option.map_some'] at h
  simp only [show validSchemeChars ['h', 't', 't', 'p', 's'] = true from by decide, if_true] at h
  simp only [show String.mk (List.map Char.toLower ['h', 't', 't', 'p', 's']) = "https"
    from by decide] at h
  simp at h
  split at h
  · exact Except.noConfusion h
  · injection h with hp
    exact (congrArg Prod.fst hp).symm

/-- C3 fails as stated: the URL `http://` passes Entry construction (it starts
with `http://`) but the defensive re-check flags it for its missing host, so
`validate_all_links` is non-empty on a registry of successfully constructed
entries. -/
theorem claim_C3_counterexample :
    DokkEntry.make "d" "http://" "f.dokk" = Except.ok ⟨"d", "http://", "f.dokk"⟩
    ∧ LinkManager.validate_all_links
        ⟨[⟨"d", "http://", "f.dokk"⟩], [("f.dokk", [⟨"d", "http://", "f.dokk"⟩])],
         some "r", []⟩
      = [(⟨"d", "http://", "f.dokk"⟩, ValidationReason.missingDomain)] := by
  decide

/-- C3 amended.  The re-check never flags the scheme of an entry that passed
construction, but it can flag a constructed entry whose URL has no host (such
as `http://`): `validateAll` returns the empty sequence on every registry whose
entries passed standard construction and whose URLs parse with a non-empty
host. -/
theorem claim_C3 (st : LinkManager)
    (hcon : ∀ e ∈ st.entries, DokkEntry.make e.description e.url e.file_path = Except.ok e)
    (hhost : ∀ e ∈ st.entries, ∃ s nl, urlparse e.url = Except.ok (s, nl) ∧ nl ≠ "") :
    st.validate_all_links = [] := by
  unfold LinkManager.validate_all_links
  rw [List.filterMap_eq_nil_iff]
  intro e he
  obtain ⟨s, nl, hup, hnl⟩ := hhost e he
  have hinv := make_ok_inv (hcon e he)
  have hpre : (pyStartsWith e.url "http://" || pyStartsWith e.url "https://") = true := by
    rw [hinv.2.1]
    exact hinv.2.2.2.2.2
  have hs : s = "http" ∨ s = "https" := by
    rcases Bool.or_eq_true_iff.mp hpre with hp | hp
    · obtain ⟨t, ht⟩ := (pyStartsWith_iff e.url "http://").mp hp
      have ht2 : e.url.data = 'h' :: 't' :: 't' :: 'p' :: ':' :: '/' :: '/' :: t := by
        rw [ht]; rfl
      exact Or.inl (urlparse_scheme_http e.url t s nl ht2 hup)
    · obtain ⟨t, ht⟩ := (pyStartsWith_iff e.url "https://").mp hp
      have ht2 : e.url.data = 'h' :: 't' :: 't' :: 'p' :: 's' :: ':' :: '/' :: '/' :: t := by
        rw [ht]; rfl
      exact Or.inr (urlparse_scheme_https e.url t s nl ht2 hup)
  rw [hup]
  rcases hs with hs | hs <;> subst hs <;> simp [hnl]

/-- Witness for the amended C3 at a concrete input. -/
theorem claim_C3_witness :
    LinkManager.validate_all_links
      ⟨[⟨"X", "https://x.test", "a.dokk"⟩],
       [("a.dokk", [⟨"X", "https://x.test", "a.dokk"⟩])], some "r", []⟩ = [] := by
  apply claim_C3
  · intro e he
    rw [List.mem_singleton] at he
    subst he
    decide
  · intro e he
    rw [List.mem_singleton] at he
    subst he
    exact ⟨"https", "x.test", by decide, by decide⟩

/-- Looking up the `i`-th file's path in the color assignment started at index
`k` yields the palette color `k + i` (modulo the palette size), provided the
paths are distinct. -/
lemma lookup_assignColors (fe : List (String × List DokkEntry)) :
    ∀ (k i : Nat) (pe : String × List DokkEntry),
      (fe.map Prod.fst).Nodup → fe[i]? = some pe →
      (assignColors k fe).lookup pe.1
        = some (COLORS.getD ((k + i) % COLORS.length) "") := by
  induction fe with
  | nil => intro k i pe _ h; simp at h
  | cons q rest ih =>
      intro k i pe hnd hi
      cases i with
      | zero =>
          rw [List.getElem?_cons_zero] at hi
          injection hi with hq
          rw [← hq]
          show List.lookup q.1 ((q.1, COLORS.getD (k % COLORS.length) "")
              :: assignColors (k + 1) rest) = _
          simp [List.lookup]
      | succ j =>
          rw [List.getElem?_cons_succ] at hi
          rw [List.map_cons, List.nodup_cons] at hnd
          have hpe : pe ∈ rest := List.getElem?_mem hi
          have hne : (pe.1 == q.1) = false := by
            have hm : pe.1 ∈ rest.map Prod.fst := List.mem_map_of_mem Prod.fst hpe
            have hq : q.1 ≠ pe.1 := fun hc => hnd.1 (hc ▸ hm)
            simp only [beq_eq_false_iff_ne]
            exact fun hc => hq hc.symm
          show List.lookup pe.1 ((q.1, COLORS.getD (k % COLORS.length) "")
              :: assignColors (k + 1) rest) = _
          rw [show List.lookup pe.1 ((q.1, COLORS.getD (k % COLORS.length) "")
              :: assignColors (k + 1) rest) = List.lookup pe.1 (assignColors (k + 1) rest)
            by simp [List.lookup, hne]]
          rw [ih (k + 1) j pe hnd.2 hi]
          rw [show k + 1 + j = k + (j + 1) by omega]

/-- Looking up a path that is not among the assigned files yields nothing. -/
lemma lookup_assignColors_none (fe : List (String × List DokkEntry)) :
    ∀ (k : Nat) (p : String), (∀ pe ∈ fe, pe.1 ≠ p) →
      (assignColors k fe).lookup p = none := by
  induction fe with
  | nil => intro k p _; rfl
  | cons q rest ih =>
      intro k p h
      have hq : (p == q.1) = false := by
        have hqp := h q (List.mem_cons_self q rest)
        simp only [beq_eq_false_iff_ne]
        exact fun hc => hqp hc.symm
      show List.lookup p ((q.1, COLORS.getD (k % COLORS.length) "")
          :: assignColors (k + 1) rest) = none
      rw [show List.lookup p ((q.1, COLORS.getD (k % COLORS.length) "")
          :: assignColors (k + 1) rest) = List.lookup p (assignColors (k + 1) rest)
        by simp [List.lookup, hq]]
      exact ih (k + 1) p (fun pe hpe => h pe (List.mem_cons_of_mem q hpe))

/-- C9.  After a successful scan the `i`-th source file in first-seen traversal
order carries the palette color `i mod N`, and `get_file_color` answers the
empty default for any path outside the file mapping. -/
theorem claim_C9 (st st' : LinkManager) (rootPath : String) (fs : FS)
    (recursive : Bool) (n : Nat)
    (hscan : st.scan_for_links rootPath fs recursive = (st', Except.ok n))
    (hnd : (st'.entriesByFile.map Prod.fst).Nodup) :
    (∀ i pe, st'.entriesByFile[i]? = some pe →
        st'.get_file_color pe.1 = COLORS.getD (i % COLORS.length) "")
    ∧ (∀ p, (∀ pe ∈ st'.entriesByFile, pe.1 ≠ p) → st'.get_file_color p = "") := by
  unfold LinkManager.scan_for_links at hscan
  cases hsd : DokkFileScanner.scan_directory fs recursive with
  | error e =>
      rw [hsd] at hscan
      injection hscan with h1 h2
      exact Except.noConfusion h2
  | ok fe =>
      rw [hsd] at hscan
      injection hscan with h1 h2
      rw [← h1] at hnd ⊢
      constructor
      · intro i pe hi
        have hc := lookup_assignColors fe 0 i pe (by simpa using hnd) (by simpa using hi)
        show ((assignColors 0 fe).lookup pe.1).getD "" = _
        rw [hc]
        simp
      · intro p hp
        have hc := lookup_assignColors_none fe 0 p (by simpa using hp)
        show ((assignColors 0 fe).lookup p).getD "" = ""
        rw [hc]
        rfl

/-- Witness for C9 at a concrete input: scanning two files colors the first
with the first palette color, the second with the second, and an unknown path
gets the empty tag. -/
theorem claim_C9_witness :
    (LinkManager.initial.scan_for_links "r" sampleFS true).1.get_file_color "a.dokk"
        = COLORS.getD 0 ""
    ∧ (LinkManager.initial.scan_for_links "r" sampleFS true).1.get_file_color "b.dokk"
        = COLORS.getD 1 ""
    ∧ (LinkManager.initial.scan_for_links "r" sampleFS true).1.get_file_color "other"
        = "" := by
  have hscan : LinkManager.initial.scan_for_links "r" sampleFS true
      = ((LinkManager.initial.scan_for_links "r" sampleFS true).1, Except.ok 2) := by
    decide
  have h := claim_C9 LinkManager.initial
    (LinkManager.initial.scan_for_links "r" sampleFS true).1 "r" sampleFS true 2 hscan
    (by decide)
  refine ⟨?_, ?_, ?_⟩
  · exact (h.1 0 ("a.dokk", [⟨"X", "https://x.test", "a.dokk"⟩]) (by decide)).trans (by decide)
  · exact (h.1 1 ("b.dokk", [⟨"Y", "https://y.test", "b.dokk"⟩]) (by decide)).trans (by decide)
  · exact h.2 "other" (by decide)

/-- C6.  The statistics report the entry count, the file count (when entries
exist), and the number of distinct lowercase hosts — entries without a
parseable host are skipped there but still counted among the links — and all
three fields are zero when there are no entries. -/
theorem claim_C6 (st : LinkManager) :
    (st.entries = [] → st.get_statistics = ⟨0, 0, 0⟩)
    ∧ st.get_statistics.total_links = st.entries.length
    ∧ (st.entries ≠ [] → st.get_statistics.total_files = st.entriesByFile.length)
    ∧ st.get_statistics.unique_domains = (specUniqueDomains st.entries).length := by
  refine ⟨?_, get_statistics_total_links st, ?_, ?_⟩
  · intro h
    unfold LinkManager.get_statistics
    rw [if_pos (by simp [h])]
  · intro h
    unfold LinkManager.get_statistics
    rw [if_neg (by simpa [List.isEmpty_iff] using h)]
  · unfold LinkManager.get_statistics
    by_cases h : st.entries.isEmpty
    · rw [if_pos h]
      have he : st.entries = [] := by simpa [List.isEmpty_iff] using h
      simp [he, specUniqueDomains]
    · rw [if_neg h]
      show (st.entries.foldl (fun acc e =>
          match urlparse e.url with
          | Except.error _ => acc
          | Except.ok sn => if sn.2 == "" then acc else acc.insert (pyLower sn.2)) []).length
        = (specUniqueDomains st.entries).length
      rw [foldDomains_eq, length_foldl_insert]
      rfl

/-- Witness for C6 at concrete inputs: the empty registry reports zeros; the
three-entry two-file sample (one URL host-less) reports 3 links, 2 files and 2
distinct domains. -/
theorem claim_C6_witness :
    LinkManager.initial.get_statistics = ⟨0, 0, 0⟩
    ∧ sampleState.get_statistics.total_links = 3
    ∧ sampleState.get_statistics.total_files = 2
    ∧ sampleState.get_statistics.unique_domains = 2 := by
  refine ⟨(claim_C6 LinkManager.initial).1 rfl, ?_, ?_, ?_⟩
  · exact ((claim_C6 sampleState).2.1).trans (by decide)
  · exact ((claim_C6 sampleState).2.2.1 (by decide)).trans (by decide)
  · exact ((claim_C6 sampleState).2.2.2).trans (by decide)

/-- The fresh registry satisfies the flattening invariant. -/
lemma initial_wf : LinkManager.initial.Wf := rfl

/-- Every state left behind by a scan — successful or failed — satisfies the
flattening invariant, so every reachable registry state does. -/
lemma scan_for_links_wf (st st' : LinkManager) (rootPath : String) (fs : FS)
    (recursive : Bool) (r : Except PyError Nat)
    (h : st.scan_for_links rootPath fs recursive = (st', r)) : st'.Wf := by
  unfold LinkManager.scan_for_links at h
  cases hsd : DokkFileScanner.scan_directory fs recursive with
  | error e =>
      rw [hsd] at h
      injection h with ha hb
      rw [← ha]
      rfl
  | ok fe =>
      rw [hsd] at h
      injection h with ha hb
      rw [← ha]
      rfl

/-- C7.  The JSON export is consistent: flattening the per-file `entries`
arrays of its `files` array yields as many objects as `statistics()` reports in
`totalLinks` and as its own `scan_info.total_entries` records. -/
theorem claim_C7 (st : LinkManager) (h : st.Wf) :
    ((st.export_to_json.files.map JsonFileData.entries).flatten.length
        = st.get_statistics.total_links)
    ∧ ((st.export_to_json.files.map JsonFileData.entries).flatten.length
        = st.export_to_json.scan_info.total_entries) := by
  have key : (st.export_to_json.files.map JsonFileData.entries).flatten.length
      = st.entries.length := by
    unfold LinkManager.export_to_json
    rw [h]
    simp only [List.length_flatten, List.map_map]
    congr 1
    apply List.map_congr_left
    intro pe _
    simp [Function.comp]
  exact ⟨key.trans (get_statistics_total_links st).symm, key⟩

/-- Witness for C7 at a concrete input. -/
theorem claim_C7_witness :
    (sampleState.export_to_json.files.map JsonFileData.entries).flatten.length
      = sampleState.get_statistics.total_links := by
  exact (claim_C7 sampleState rfl).1

/-- Witness for C5 at concrete inputs: a filesystem with two parseable files
scans successfully with non-empty per-file lists, and adding a malformed file
does not change the scan result. -/
theorem claim_C5_witness :
    (∃ l, DokkFileScanner.scan_directory sampleFS true = Except.ok l
      ∧ ∀ pe ∈ l, pe.2 ≠ [])
    ∧ DokkFileScanner.scan_directory ⟨"r", true, true, [sampleBad]⟩ true
        = DokkFileScanner.scan_directory ⟨"r", true, true, []⟩ true := by
  constructor
  · exact (claim_C5 sampleFS true).2.2.1 rfl rfl
  · have h := (claim_C5 ⟨"r", true, true, []⟩ true).2.2.2 [] [] sampleBad
      (Or.inl ⟨PyError.invalidFormat 1 "bad.dokk" "oops", by decide⟩)
    simpa using h

/-- Witness for the amended C1 at a concrete input. -/
theorem claim_C1_witness :
    LinkManager.initial.scan_for_links "m" ⟨"m", false, false, []⟩ true
      = (⟨[], [], some "m", []⟩,
         Except.error (PyError.runtimeWrapped (PyError.fileNotFound "m"))) := by
  have h := claim_C1 LinkManager.initial "m" ⟨"m", false, false, []⟩ true (Or.inl rfl)
  simpa using h

end Dokkument
